import Mathlib

/-!
Shallow embedding of the Dissent ConnectionManager
(src/src/Connections/ConnectionManager.cpp).

The manager is modelled as a pure state machine: every C++ handler becomes a
Lean function from the manager state (and the incoming message or edge) to a
new state together with the ordered list of observable effects the handler
performs (RPC messages sent, edges closed, Qt signals emitted, table
insertions).  Collaborator classes whose code is not part of the source file
(ConnectionTable, EdgeFactory, Connection, Edge) are modelled from the
specification, as marked on each definition.
-/

namespace CM

/-- Peer ids are opaque byte strings (QByteArray); a byte is a Nat. -/
abbrev PeerId := List Nat

/-- Transport addresses are opaque; only compared for error reporting. -/
abbrev Addr := String

/-- Modelled from the spec: an Edge is a bidirectional byte channel with an
outbound flag, a remote address and a monotonic closed flag; eid is the
object identity of the underlying C++ pointer. -/
structure Edge where
  eid : Nat
  outbound : Bool
  remoteAddr : Addr
  closed : Bool
deriving DecidableEq, Repr

/-- Modelled from the spec: a Connection is a promoted edge bound to the
local and remote peer ids. -/
structure Connection where
  edge : Edge
  localId : PeerId
  remoteId : PeerId
deriving DecidableEq, Repr

/-- Modelled from the spec: a ConnectionTable holds a multiset of edges, a
PeerId map of live connections (cons), and the connections marked
DisconnectRequested, which leave the PeerId map but stay addressable
(disconnecting).  The repository file ConnectionTable.cpp is not under src. -/
structure ConnectionTable where
  edges : List Edge
  cons : List Connection
  disconnecting : List Connection
deriving DecidableEq, Repr

namespace ConnectionTable

/-- The empty table. -/
def empty : ConnectionTable := ⟨[], [], []⟩

/-- Modelled from the spec: add_edge. -/
def addEdge (t : ConnectionTable) (e : Edge) : ConnectionTable :=
  { t with edges := e :: t.edges }

/-- Modelled from the spec: remove_edge, keyed by edge identity; the Bool
reports whether the edge was present. -/
def removeEdge (t : ConnectionTable) (e : Edge) : Bool × ConnectionTable :=
  (t.edges.any (fun x => x.eid = e.eid),
   { t with edges := t.edges.filter (fun x => x.eid ≠ e.eid) })

/-- Modelled from the spec: get_edge, the shared pointer for a raw edge. -/
def getEdge (t : ConnectionTable) (e : Edge) : Option Edge :=
  t.edges.find? (fun x => x.eid = e.eid)

/-- Modelled from the spec: add_connection. -/
def addConnection (t : ConnectionTable) (c : Connection) : ConnectionTable :=
  { t with cons := c :: t.cons }

/-- Modelled from the spec: get_connection by peer id (the PeerId map). -/
def getConnection (t : ConnectionTable) (pid : PeerId) : Option Connection :=
  t.cons.find? (fun c => c.remoteId = pid)

/-- Modelled from the spec: contains, membership of a connection. -/
def contains (t : ConnectionTable) (c : Connection) : Bool :=
  t.cons.contains c

/-- Modelled from the spec: disconnect marks the connection
DisconnectRequested and removes it from the PeerId map. -/
def disconnect (t : ConnectionTable) (c : Connection) : ConnectionTable :=
  { t with cons := t.cons.filter (fun x => x ≠ c),
           disconnecting := c :: t.disconnecting }

/-- Modelled from the spec: remove_connection, final removal on the
Disconnected event. -/
def removeConnection (t : ConnectionTable) (c : Connection) : ConnectionTable :=
  { t with cons := t.cons.filter (fun x => x ≠ c),
           disconnecting := t.disconnecting.filter (fun x => x ≠ c) }

end ConnectionTable

/-- Modelled from the spec: the RPC sender behind a message, which the C++
code inspects with dynamic_cast; an Edge, a Connection, or something else. -/
inductive Sender
  | edge (e : Edge)
  | con (c : Connection)
  | other (descr : String)
deriving DecidableEq, Repr

/-- Modelled from the spec: the payload map of an RPC message; a missing
peer_id entry converts to the empty byte string, so it is encoded as []. -/
structure RpcMessage where
  peerId : PeerId
deriving DecidableEq, Repr

/-- Modelled from the spec: an RpcRequest carries the sender and the payload. -/
structure RpcRequest where
  sender : Sender
  message : RpcMessage
deriving DecidableEq, Repr

/-- Modelled from the spec: the EdgeFactory aggregates listeners, each a
predicate telling whether it claims an address, and a stopped flag.  The
repository file EdgeFactory.cpp is not under src. -/
structure EdgeFactory where
  listeners : List (Addr → Bool)
  stopped : Bool

/-- Modelled from the spec: create_edge_to returns true exactly when some
registered listener claims the address (and that listener dials). -/
def EdgeFactory.createEdgeTo (f : EdgeFactory) (a : Addr) : Bool :=
  f.listeners.any (fun h => h a)

/-- Modelled from the spec: add_listener registers a listener. -/
def EdgeFactory.addListener (f : EdgeFactory) (l : Addr → Bool) : EdgeFactory :=
  { f with listeners := l :: f.listeners }

/-- Modelled from the spec: stop is idempotent and ceases edge production. -/
def EdgeFactory.stop (f : EdgeFactory) : EdgeFactory :=
  { f with stopped := true }

/-- One observable effect performed by a handler, in program order: RPC
traffic, edge closure, factory control, table insertion markers, and the
Qt signals the manager emits. -/
inductive Effect
  | sendRequest (method : String) (peerId : PeerId) (e : Edge)
  | sendNotification (method : String) (peerId : Option PeerId) (target : Sender)
  | respond (peerId : PeerId)
  | setSink (e : Edge)
  | subscribeClosed (e : Edge)
  | dial (addr : Addr)
  | closeEdge (e : Edge) (reason : String)
  | conDisconnect (c : Connection)
  | insert (outTable : Bool) (c : Connection)
  | newConnection (c : Connection) (locallyInitiated : Bool)
  | connectionAttemptFailure (addr : Addr) (reason : String)
  | disconnected
  | stopFactory
deriving DecidableEq, Repr

/-- The ConnectionManager state: local id, the outbound table (con_tab in
the source), the inbound table (rem_con_tab), the edge factory, and the
monotonic closed flag. -/
structure CMState where
  localId : PeerId
  conTab : ConnectionTable
  remConTab : ConnectionTable
  edgeFactory : EdgeFactory
  closed : Bool

/-- ConnectionManager::AddEdgeListener: after Disconnect it only warns;
otherwise the listener is registered with the factory. -/
def AddEdgeListener (s : CMState) (l : Addr → Bool) : CMState × List Effect :=
  if s.closed then (s, [])
  else ({ s with edgeFactory := s.edgeFactory.addListener l }, [])

/-- ConnectionManager::ConnectTo: after Disconnect it only warns; otherwise
it asks the factory to dial, surfacing ConnectionAttemptFailure when no
listener handles the address. -/
def ConnectTo (s : CMState) (addr : Addr) : CMState × List Effect :=
  if s.closed then (s, [])
  else if s.edgeFactory.createEdgeTo addr then (s, [.dial addr])
  else (s, [.connectionAttemptFailure addr "No EdgeListener to handle request"])

/-- ConnectionManager::Disconnect (the public shutdown entry): on the first
call it sets closed, snapshots whether both tables are empty of edges,
invokes disconnect on every connection of both tables, closes every not yet
closed edge of both tables with reason Disconnecting, stops the factory,
and emits Disconnected when the snapshot was empty. -/
def Disconnect (s : CMState) : CMState × List Effect :=
  if s.closed then (s, [])
  else
    let emitDis := s.conTab.edges.length = 0 ∧ s.remConTab.edges.length = 0
    ({ s with closed := true, edgeFactory := s.edgeFactory.stop },
     (s.conTab.cons.map Effect.conDisconnect) ++
     (s.remConTab.cons.map Effect.conDisconnect) ++
     ((s.conTab.edges.filter (fun e => !e.closed)).map
        (fun e => Effect.closeEdge e "Disconnecting")) ++
     ((s.remConTab.edges.filter (fun e => !e.closed)).map
        (fun e => Effect.closeEdge e "Disconnecting")) ++
     [Effect.stopFactory] ++
     (if emitDis then [Effect.disconnected] else []))

/-- ConnectionManager::HandleNewEdge: set the sink, subscribe to Closed,
then file the edge by its outbound flag; an outbound edge also gets the
CM::Inquire request carrying the local id. -/
def HandleNewEdge (s : CMState) (e : Edge) : CMState × List Effect :=
  if !e.outbound then
    ({ s with remConTab := s.remConTab.addEdge e },
     [.setSink e, .subscribeClosed e])
  else
    ({ s with conTab := s.conTab.addEdge e },
     [.setSink e, .subscribeClosed e, .sendRequest "CM::Inquire" s.localId e])

/-- ConnectionManager::HandleEdgeCreationFailure. -/
def HandleEdgeCreationFailure (s : CMState) (toAddr : Addr) (reason : String) :
    CMState × List Effect :=
  (s, [.connectionAttemptFailure toAddr reason])

/-- ConnectionManager::Inquire: answer with the local id. -/
def Inquire (s : CMState) (_request : RpcRequest) : CMState × List Effect :=
  (s, [.respond s.localId])

/-- ConnectionManager::Inquired: the dialer side of the handshake.  Drops
non-Edge senders, inbound edges and empty ids; on the local id it closes as
a self-connect, on a known peer as a duplicate; otherwise it sends
CM::Connect, creates the connection, adds it to the outbound table and
emits NewConnection. -/
def Inquired (s : CMState) (response : RpcRequest) : CMState × List Effect :=
  match response.sender with
  | .edge edge =>
    if !edge.outbound then (s, [])
    else
      let bremId := response.message.peerId
      if bremId = [] then (s, [])
      else
        let remId := bremId
        if remId = s.localId then
          (s, [.sendNotification "CM::Close" none (.edge edge),
               .closeEdge edge "Attempting to connect to ourself",
               .connectionAttemptFailure edge.remoteAddr
                 "Attempting to connect to ourself"])
        else if (s.conTab.getConnection remId).isSome then
          (s, [.sendNotification "CM::Close" none (.edge edge),
               .closeEdge edge "Duplicate connection",
               .connectionAttemptFailure edge.remoteAddr "Duplicate connection"])
        else
          match s.conTab.getEdge edge with
          | none => (s, [])
          | some pedge =>
            let con : Connection := ⟨pedge, s.localId, remId⟩
            ({ s with conTab := s.conTab.addConnection con },
             [.sendNotification "CM::Connect" (some s.localId) (.edge edge),
              .insert true con,
              .newConnection con true])
  | _ => (s, [])

/-- ConnectionManager::Connect: the listener side.  Drops non-Edge senders
and empty ids; disconnects any existing inbound connection with the same
remote id, then (when the edge is on record) creates the connection, adds
it to the inbound table and emits NewConnection. -/
def Connect (s : CMState) (notified : RpcRequest) : CMState × List Effect :=
  match notified.sender with
  | .edge edge =>
    let bremId := notified.message.peerId
    if bremId = [] then (s, [])
    else
      let remId := bremId
      let oldEffects :=
        match s.remConTab.getConnection remId with
        | some oldCon => [Effect.conDisconnect oldCon]
        | none => []
      match s.remConTab.getEdge edge with
      | none => (s, oldEffects)
      | some pedge =>
        let con : Connection := ⟨pedge, s.localId, remId⟩
        ({ s with remConTab := s.remConTab.addConnection con },
         oldEffects ++ [.insert false con, .newConnection con false])
  | _ => (s, [])

/-- ConnectionManager::Close: a remote CM::Close notification closes the
sending edge. -/
def Close (s : CMState) (notified : RpcRequest) : CMState × List Effect :=
  match notified.sender with
  | .edge edge => (s, [.closeEdge edge "Closed from remote peer"])
  | _ => (s, [])

/-- ConnectionManager::HandleDisconnect (local CalledDisconnect signal):
mark disconnecting in the outbound table when it contains the connection,
else in the inbound table; notify the remote side and close the edge. -/
def HandleDisconnect (s : CMState) (con : Connection) : CMState × List Effect :=
  (if s.conTab.contains con then { s with conTab := s.conTab.disconnect con }
   else { s with remConTab := s.remConTab.disconnect con },
   [.sendNotification "CM::Disconnect" none (.con con),
    .closeEdge con.edge "Local disconnect request"])

/-- ConnectionManager::HandleDisconnected: final removal, routed by the
outbound flag of the edge of the connection. -/
def HandleDisconnected (s : CMState) (con : Connection) (_reason : String) :
    CMState :=
  if con.edge.outbound then { s with conTab := s.conTab.removeConnection con }
  else { s with remConTab := s.remConTab.removeConnection con }

/-- ConnectionManager::Disconnect(RpcRequest), the remote CM::Disconnect
notification: mark disconnecting in the inbound table when it contains the
connection, else in the outbound table, then close the edge. -/
def DisconnectRpc (s : CMState) (notified : RpcRequest) : CMState × List Effect :=
  match notified.sender with
  | .con con =>
    (if s.remConTab.contains con then
       { s with remConTab := s.remConTab.disconnect con }
     else { s with conTab := s.conTab.disconnect con },
     [.closeEdge con.edge "Remote disconnect"])
  | _ => (s, [])

/-- ConnectionManager::HandleEdgeClose, state part: remove the edge from
the table chosen by its outbound flag (the local con_tab reference of the
source). -/
def HandleEdgeCloseState (s : CMState) (edge : Edge) : CMState :=
  if edge.outbound then { s with conTab := (s.conTab.removeEdge edge).2 }
  else { s with remConTab := (s.remConTab.removeEdge edge).2 }

/-- ConnectionManager::HandleEdgeClose: remove the edge from the table
chosen by its outbound flag; after shutdown, emit Disconnected when both
tables have just become empty of edges. -/
def HandleEdgeClose (s : CMState) (edge : Edge) : CMState × List Effect :=
  if !s.closed then (HandleEdgeCloseState s edge, [])
  else if (HandleEdgeCloseState s edge).conTab.edges.length = 0 ∧
      (HandleEdgeCloseState s edge).remConTab.edges.length = 0 then
    (HandleEdgeCloseState s edge, [.disconnected])
  else (HandleEdgeCloseState s edge, [])

/-- An external stimulus delivered to the manager by the event loop: the
public API calls, the factory signals, the RPC dispatch of the four
registered methods and of Inquired responses, and the Qt signals of
connections and edges the manager subscribed to. -/
inductive Event
  | addEdgeListener (l : Addr → Bool)
  | connectTo (a : Addr)
  | callDisconnect
  | newEdge (e : Edge)
  | edgeCreationFailure (a : Addr) (r : String)
  | inquire (r : RpcRequest)
  | inquired (r : RpcRequest)
  | close (r : RpcRequest)
  | connect (r : RpcRequest)
  | disconnectRpc (r : RpcRequest)
  | calledDisconnect (c : Connection)
  | disconnectedCon (c : Connection) (reason : String)
  | edgeClosed (e : Edge)

/-- Dispatch of one event to the handler the source wires it to. -/
def stepE (s : CMState) : Event → CMState × List Effect
  | .addEdgeListener l => AddEdgeListener s l
  | .connectTo a => ConnectTo s a
  | .callDisconnect => Disconnect s
  | .newEdge e => HandleNewEdge s e
  | .edgeCreationFailure a r => HandleEdgeCreationFailure s a r
  | .inquire r => Inquire s r
  | .inquired r => Inquired s r
  | .close r => Close s r
  | .connect r => Connect s r
  | .disconnectRpc r => DisconnectRpc s r
  | .calledDisconnect c => HandleDisconnect s c
  | .disconnectedCon c reason => (HandleDisconnected s c reason, [])
  | .edgeClosed e => HandleEdgeClose s e

/-- A world couples the manager state with the ghost list of adopted edges
whose Closed signal has not yet been delivered.  The ghost list is what
admissibility of external events is phrased over. -/
structure World where
  cm : CMState
  pending : List Edge

/-- Admissibility of an event: a NewEdge signal only arrives while the
factory is not stopped and carries a fresh edge identity; a Closed signal
only arrives for an adopted edge that has not reported Closed before (the
manager subscribes once per adopted edge and the closed flag of an edge is
monotonic).  All other stimuli are unconstrained. -/
def admissible (w : World) : Event → Prop
  | .newEdge e => w.cm.edgeFactory.stopped = false ∧ e.eid ∉ w.pending.map Edge.eid
  | .edgeClosed e => e ∈ w.pending
  | _ => True

/-- Ghost update of the pending list. -/
def pendingAfter (p : List Edge) : Event → List Edge
  | .newEdge e => e :: p
  | .edgeClosed e => p.filter (fun x => x.eid ≠ e.eid)
  | _ => p

/-- The state the constructor builds: empty tables, no listeners, open. -/
def initState (pid : PeerId) : CMState :=
  { localId := pid, conTab := .empty, remConTab := .empty,
    edgeFactory := ⟨[], false⟩, closed := false }

/-- Reachability: worlds and accumulated effect traces produced by any
admissible sequence of events from a fresh manager. -/
inductive Reach : World → List Effect → Prop
  | init (pid : PeerId) : Reach ⟨initState pid, []⟩ []
  | step {w : World} {tr : List Effect} (ev : Event) :
      Reach w tr → admissible w ev →
      Reach ⟨(stepE w.cm ev).1, pendingAfter w.pending ev⟩
        (tr ++ (stepE w.cm ev).2)

/-- The fields that govern Disconnected emission are unchanged between two
manager states: both edge multisets, the closed flag and the factory flag. -/
def SameSkel (s t : CMState) : Prop :=
  t.conTab.edges = s.conTab.edges ∧ t.remConTab.edges = s.remConTab.edges ∧
  t.closed = s.closed ∧ t.edgeFactory.stopped = s.edgeFactory.stopped

/-- A handler result is quiet when it keeps the shutdown-relevant fields and
emits no Disconnected effect. -/
def Quiet (f : CMState × List Effect) (s : CMState) : Prop :=
  SameSkel s f.1 ∧ Effect.disconnected ∉ f.2

/-- The inductive invariant of reachable worlds: the two edge multisets are
the outbound and inbound halves of the pending ghost list, pending edges
have distinct identities, the closed flag tracks the factory flag, and the
trace carries at most one Disconnected, which forces shutdown and a fully
drained pending list. -/
def Inv (w : World) (tr : List Effect) : Prop :=
  w.cm.conTab.edges = w.pending.filter (fun e => e.outbound) ∧
  w.cm.remConTab.edges = w.pending.filter (fun e => !e.outbound) ∧
  (w.pending.map Edge.eid).Nodup ∧
  w.cm.closed = w.cm.edgeFactory.stopped ∧
  tr.count Effect.disconnected ≤ 1 ∧
  (1 ≤ tr.count Effect.disconnected → w.cm.closed = true ∧ w.pending = [])

/-- Overwrite only the closed flag of a manager state. -/
def setClosed (s : CMState) (b : Bool) : CMState := { s with closed := b }

/-- Sample outbound edge dialed to address mem of node B. -/
def eOut : Edge := ⟨1, true, "mem://B", false⟩

/-- Second sample outbound edge to B. -/
def eOut2 : Edge := ⟨3, true, "mem://B", false⟩

/-- Sample inbound edge from node C. -/
def eIn : Edge := ⟨2, false, "mem://C", false⟩

/-- Sample peer id of the local node A. -/
def idA : PeerId := [0]

/-- Sample peer id of node B. -/
def idB : PeerId := [1]

/-- Sample peer id of node C. -/
def idC : PeerId := [2]

/-- Sample outbound connection of A to B over eOut. -/
def conB : Connection := ⟨eOut, idA, idB⟩

/-- Sample inbound connection of A from C over eIn. -/
def conC : Connection := ⟨eIn, idA, idC⟩

/-- Sample state: one outbound edge awaiting its Inquired response. -/
def sOut : CMState :=
  { localId := idA, conTab := ⟨[eOut], [], []⟩,
    remConTab := ConnectionTable.empty, edgeFactory := ⟨[], false⟩,
    closed := false }

/-- Sample state: an established connection to B plus a second edge to B. -/
def sDup : CMState := { sOut with conTab := ⟨[eOut, eOut2], [conB], []⟩ }

/-- Sample state: one inbound edge and an inbound connection from C. -/
def sIn : CMState :=
  { localId := idA, conTab := ConnectionTable.empty,
    remConTab := ⟨[eIn], [conC], []⟩, edgeFactory := ⟨[], false⟩,
    closed := false }

/-- Sample state: live connections and edges in both tables. -/
def sLive : CMState :=
  { localId := idA, conTab := ⟨[eOut], [conB], []⟩,
    remConTab := ⟨[eIn], [conC], []⟩, edgeFactory := ⟨[], false⟩,
    closed := false }

/-- Sample state after shutdown. -/
def sDown : CMState := { sOut with closed := true }

/-- Sample state with a listener that claims every address. -/
def sClaim : CMState :=
  { sOut with edgeFactory := ⟨[fun _ => true], false⟩ }

theorem quiet_AddEdgeListener (s : CMState) (l : Addr → Bool) :
    Quiet (AddEdgeListener s l) s := by
  unfold Quiet SameSkel AddEdgeListener EdgeFactory.addListener
  split <;> simp

theorem quiet_ConnectTo (s : CMState) (a : Addr) : Quiet (ConnectTo s a) s := by
  unfold Quiet SameSkel ConnectTo
  split <;> [simp; split <;> simp]

theorem quiet_EdgeCreationFailure (s : CMState) (a : Addr) (r : String) :
    Quiet (HandleEdgeCreationFailure s a r) s := by
  unfold Quiet SameSkel HandleEdgeCreationFailure
  simp

theorem quiet_Inquire (s : CMState) (r : RpcRequest) : Quiet (Inquire s r) s := by
  unfold Quiet SameSkel Inquire
  simp

theorem quiet_Inquired (s : CMState) (r : RpcRequest) : Quiet (Inquired s r) s := by
  unfold Quiet SameSkel Inquired
  rcases r with ⟨sd, m⟩
  cases sd with
  | edge e =>
    dsimp only
    split
    · simp
    · split
      · simp
      · split
        · simp
        · split
          · simp
          · split <;> simp [ConnectionTable.addConnection]
  | con c => simp
  | other d => simp

theorem quiet_Close (s : CMState) (r : RpcRequest) : Quiet (Close s r) s := by
  unfold Quiet SameSkel Close
  rcases r with ⟨sd, m⟩
  cases sd <;> simp

theorem quiet_Connect (s : CMState) (r : RpcRequest) : Quiet (Connect s r) s := by
  unfold Quiet SameSkel Connect
  rcases r with ⟨sd, m⟩
  cases sd with
  | edge e =>
    dsimp only
    split
    · simp
    · split <;>
        · split <;> simp_all [ConnectionTable.addConnection]
  | con c => simp
  | other d => simp

theorem quiet_DisconnectRpc (s : CMState) (r : RpcRequest) :
    Quiet (DisconnectRpc s r) s := by
  unfold Quiet SameSkel DisconnectRpc
  rcases r with ⟨sd, m⟩
  cases sd with
  | edge e => simp
  | con c =>
    dsimp only
    split <;> simp [ConnectionTable.disconnect]
  | other d => simp

theorem quiet_HandleDisconnect (s : CMState) (c : Connection) :
    Quiet (HandleDisconnect s c) s := by
  unfold Quiet SameSkel HandleDisconnect
  split <;> simp [ConnectionTable.disconnect]

theorem quiet_HandleDisconnected (s : CMState) (c : Connection) (r : String) :
    Quiet (HandleDisconnected s c r, []) s := by
  unfold Quiet SameSkel HandleDisconnected
  split <;> simp [ConnectionTable.removeConnection]

theorem edgeFilter_stable (p : List Edge) (e : Edge) (q : Edge → Bool)
    (hn : (p.map Edge.eid).Nodup) (he : e ∈ p) (hq : q e = false) :
    (p.filter (fun x => x.eid ≠ e.eid)).filter q = p.filter q := by
  rw [List.filter_comm, List.filter_eq_self]
  intro x hx
  rcases List.mem_filter.mp hx with ⟨hxp, hxq⟩
  simp only [decide_eq_true_eq]
  intro hcon
  have hxe : x = e := List.inj_on_of_nodup_map hn hxp he hcon
  rw [hxe, hq] at hxq
  cases hxq

theorem nil_of_filters_nil (l : List Edge)
    (h1 : l.filter (fun e => e.outbound) = [])
    (h2 : l.filter (fun e => !e.outbound) = []) : l = [] := by
  cases l with
  | nil => rfl
  | cons a t =>
    by_cases h : a.outbound
    · simp [List.filter_cons, h] at h1
    · simp [List.filter_cons, h] at h2

theorem count_dis_conDisconnect (cs : List Connection) :
    (cs.map Effect.conDisconnect).count Effect.disconnected = 0 := by
  rw [List.count_eq_zero]
  intro h
  rcases List.mem_map.mp h with ⟨c, -, hc⟩
  cases hc

theorem count_dis_closeEdge (es : List Edge) (r : String) :
    (es.map (fun e => Effect.closeEdge e r)).count Effect.disconnected = 0 := by
  rw [List.count_eq_zero]
  intro h
  rcases List.mem_map.mp h with ⟨c, -, hc⟩
  cases hc

theorem inv_quiet {w : World} {tr : List Effect} (f : CMState × List Effect)
    (hq : Quiet f w.cm) (ih : Inv w tr) : Inv ⟨f.1, w.pending⟩ (tr ++ f.2) := by
  obtain ⟨⟨h1, h2, h3, h4⟩, h5⟩ := hq
  obtain ⟨i1, i2, i3, i4, i5, i6⟩ := ih
  have hc : (tr ++ f.2).count Effect.disconnected =
      tr.count Effect.disconnected := by
    rw [List.count_append, List.count_eq_zero.mpr h5, Nat.add_zero]
  refine ⟨?_, ?_, i3, ?_, ?_, ?_⟩
  · rw [h1]; exact i1
  · rw [h2]; exact i2
  · rw [h3, h4]; exact i4
  · rw [hc]; exact i5
  · rw [hc]
    intro h
    obtain ⟨ha, hb⟩ := i6 h
    exact ⟨h3.trans ha, hb⟩

theorem reach_inv : ∀ {w : World} {tr : List Effect}, Reach w tr → Inv w tr := by
  intro w tr h
  induction h with
  | init pid =>
    simp [Inv, initState, ConnectionTable.empty]
  | step ev hr hadm ih =>
    rename_i w tr
    cases ev with
    | addEdgeListener l => exact inv_quiet _ (quiet_AddEdgeListener w.cm l) ih
    | connectTo a => exact inv_quiet _ (quiet_ConnectTo w.cm a) ih
    | edgeCreationFailure a r =>
      exact inv_quiet _ (quiet_EdgeCreationFailure w.cm a r) ih
    | inquire r => exact inv_quiet _ (quiet_Inquire w.cm r) ih
    | inquired r => exact inv_quiet _ (quiet_Inquired w.cm r) ih
    | close r => exact inv_quiet _ (quiet_Close w.cm r) ih
    | connect r => exact inv_quiet _ (quiet_Connect w.cm r) ih
    | disconnectRpc r => exact inv_quiet _ (quiet_DisconnectRpc w.cm r) ih
    | calledDisconnect c => exact inv_quiet _ (quiet_HandleDisconnect w.cm c) ih
    | disconnectedCon c r =>
      exact inv_quiet _ (quiet_HandleDisconnected w.cm c r) ih
    | callDisconnect =>
      obtain ⟨i1, i2, i3, i4, i5, i6⟩ := ih
      show Inv ⟨(Disconnect w.cm).1, w.pending⟩ (tr ++ (Disconnect w.cm).2)
      by_cases hc : w.cm.closed
      · simp only [Disconnect, hc, if_true, List.append_nil]
        exact ⟨i1, i2, i3, i4, i5, i6⟩
      · have hc' : w.cm.closed = false := by simpa using hc
        have h0 : tr.count Effect.disconnected = 0 := by
          rcases Nat.eq_zero_or_pos (tr.count Effect.disconnected) with h | h
          · exact h
          · exact absurd (i6 h).1 (by simp [hc'])
        simp only [Disconnect, hc', Bool.false_eq_true, if_false]
        by_cases hemp : w.cm.conTab.edges = [] ∧ w.cm.remConTab.edges = []
        · have hp : w.pending = [] := by
            refine nil_of_filters_nil _ ?_ ?_
            · rw [← i1]; exact hemp.1
            · rw [← i2]; exact hemp.2
          refine ⟨i1, i2, i3, rfl, ?_, ?_⟩
          · simp [hemp.1, hemp.2, List.count_append, h0,
              count_dis_conDisconnect, count_dis_closeEdge, List.count_cons,
              List.count_nil]
          · intro _
            exact ⟨rfl, hp⟩
        · refine ⟨i1, i2, i3, rfl, ?_, ?_⟩
          · simp [hemp, List.length_eq_zero, List.count_append, h0,
              count_dis_conDisconnect, count_dis_closeEdge, List.count_cons,
              List.count_nil]
          · intro hcon
            exfalso
            simp [hemp, List.length_eq_zero, List.count_append, h0,
              count_dis_conDisconnect, count_dis_closeEdge, List.count_cons,
              List.count_nil] at hcon
    | newEdge e =>
      obtain ⟨i1, i2, i3, i4, i5, i6⟩ := ih
      obtain ⟨hstop, hfresh⟩ := hadm
      show Inv ⟨(HandleNewEdge w.cm e).1, e :: w.pending⟩
        (tr ++ (HandleNewEdge w.cm e).2)
      have h0 : tr.count Effect.disconnected = 0 := by
        rcases Nat.eq_zero_or_pos (tr.count Effect.disconnected) with h | h
        · exact h
        · have hcl := (i6 h).1
          rw [i4, hstop] at hcl
          cases hcl
      by_cases ho : e.outbound
      · simp only [HandleNewEdge, ho, Bool.not_true, Bool.false_eq_true,
          if_false]
        refine ⟨?_, ?_, ?_, i4, ?_, ?_⟩
        · show e :: w.cm.conTab.edges = _
          simp [List.filter_cons, ho, i1, ConnectionTable.addEdge]
        · simp [List.filter_cons, ho, i2]
        · simpa [List.nodup_cons, hfresh] using i3
        · simp [List.count_append, h0, List.count_cons, List.count_nil]
        · intro hcon
          exfalso
          simp [List.count_append, h0, List.count_cons, List.count_nil] at hcon
      · have ho' : e.outbound = false := by simpa using ho
        simp only [HandleNewEdge, ho', Bool.not_false, if_true]
        refine ⟨?_, ?_, ?_, i4, ?_, ?_⟩
        · simp [List.filter_cons, ho', i1]
        · show e :: w.cm.remConTab.edges = _
          simp [List.filter_cons, ho', i2, ConnectionTable.addEdge]
        · simpa [List.nodup_cons, hfresh] using i3
        · simp [List.count_append, h0, List.count_cons, List.count_nil]
        · intro hcon
          exfalso
          simp [List.count_append, h0, List.count_cons, List.count_nil] at hcon
    | edgeClosed e =>
      obtain ⟨i1, i2, i3, i4, i5, i6⟩ := ih
      have he : e ∈ w.pending := hadm
      show Inv ⟨(HandleEdgeClose w.cm e).1,
          w.pending.filter (fun x => x.eid ≠ e.eid)⟩
        (tr ++ (HandleEdgeClose w.cm e).2)
      have hnodup : ((w.pending.filter (fun x => x.eid ≠ e.eid)).map
          Edge.eid).Nodup :=
        i3.sublist ((List.filter_sublist w.pending).map Edge.eid)
      have hstate : (HandleEdgeClose w.cm e).1 = HandleEdgeCloseState w.cm e := by
        unfold HandleEdgeClose
        split <;> (try split) <;> rfl
      have hcon' : (HandleEdgeCloseState w.cm e).conTab.edges =
          (w.pending.filter (fun x => x.eid ≠ e.eid)).filter
            (fun x => x.outbound) := by
        by_cases ho : e.outbound
        · have h1 : (HandleEdgeCloseState w.cm e).conTab.edges =
              w.cm.conTab.edges.filter (fun x => x.eid ≠ e.eid) := by
            simp [HandleEdgeCloseState, ho, ConnectionTable.removeEdge]
          rw [h1, i1]
          exact List.filter_comm _ _ _
        · have ho' : e.outbound = false := by simpa using ho
          have h1 : (HandleEdgeCloseState w.cm e).conTab.edges =
              w.cm.conTab.edges := by
            simp [HandleEdgeCloseState, ho']
          rw [h1, i1]
          exact (edgeFilter_stable w.pending e _ i3 he ho').symm
      have hrem' : (HandleEdgeCloseState w.cm e).remConTab.edges =
          (w.pending.filter (fun x => x.eid ≠ e.eid)).filter
            (fun x => !x.outbound) := by
        by_cases ho : e.outbound
        · have h1 : (HandleEdgeCloseState w.cm e).remConTab.edges =
              w.cm.remConTab.edges := by
            simp [HandleEdgeCloseState, ho]
          rw [h1, i2]
          exact (edgeFilter_stable w.pending e _ i3 he (by simp [ho])).symm
        · have ho' : e.outbound = false := by simpa using ho
          have h1 : (HandleEdgeCloseState w.cm e).remConTab.edges =
              w.cm.remConTab.edges.filter (fun x => x.eid ≠ e.eid) := by
            simp [HandleEdgeCloseState, ho', ConnectionTable.removeEdge]
          rw [h1, i2]
          exact List.filter_comm _ _ _
      have hskc : (HandleEdgeCloseState w.cm e).closed = w.cm.closed := by
        unfold HandleEdgeCloseState
        split <;> rfl
      have hsks : (HandleEdgeCloseState w.cm e).edgeFactory.stopped =
          w.cm.edgeFactory.stopped := by
        unfold HandleEdgeCloseState
        split <;> rfl
      by_cases hcl : w.cm.closed
      · have h0 : tr.count Effect.disconnected = 0 := by
          rcases Nat.eq_zero_or_pos (tr.count Effect.disconnected) with h | h
          · exact h
          · have := (i6 h).2
            rw [this] at he
            cases he
        have hnc : ¬((!w.cm.closed) = true) := by simp [hcl]
        by_cases hemp : (HandleEdgeCloseState w.cm e).conTab.edges = [] ∧
            (HandleEdgeCloseState w.cm e).remConTab.edges = []
        · have htr : (HandleEdgeClose w.cm e).2 = [Effect.disconnected] := by
            unfold HandleEdgeClose
            rw [if_neg hnc,
              if_pos ⟨by rw [hemp.1]; rfl, by rw [hemp.2]; rfl⟩]
          have hp : w.pending.filter (fun x => x.eid ≠ e.eid) = [] := by
            refine nil_of_filters_nil _ ?_ ?_
            · rw [← hcon']; exact hemp.1
            · rw [← hrem']; exact hemp.2
          refine ⟨?_, ?_, hnodup, ?_, ?_, ?_⟩
          · rw [hstate]; exact hcon'
          · rw [hstate]; exact hrem'
          · rw [hstate, hskc, hsks]; exact i4
          · rw [htr]
            simp [List.count_append, h0, List.count_cons, List.count_nil]
          · intro _
            refine ⟨?_, hp⟩
            rw [hstate, hskc]
            exact hcl
        · have h2 : ¬((HandleEdgeCloseState w.cm e).conTab.edges.length = 0 ∧
              (HandleEdgeCloseState w.cm e).remConTab.edges.length = 0) := by
            intro hcon2
            exact hemp ⟨List.length_eq_zero.mp hcon2.1,
              List.length_eq_zero.mp hcon2.2⟩
          have htr : (HandleEdgeClose w.cm e).2 = [] := by
            unfold HandleEdgeClose
            rw [if_neg hnc, if_neg h2]
          refine ⟨?_, ?_, hnodup, ?_, ?_, ?_⟩
          · rw [hstate]; exact hcon'
          · rw [hstate]; exact hrem'
          · rw [hstate, hskc, hsks]; exact i4
          · rw [htr, List.append_nil]; exact i5
          · intro hcon
            rw [htr, List.append_nil, h0] at hcon
            exact absurd hcon (by omega)
      · have hcl' : w.cm.closed = false := by simpa using hcl
        have htr : (HandleEdgeClose w.cm e).2 = [] := by
          unfold HandleEdgeClose
          rw [if_pos (by simp [hcl'])]
        refine ⟨?_, ?_, hnodup, ?_, ?_, ?_⟩
        · rw [hstate]; exact hcon'
        · rw [hstate]; exact hrem'
        · rw [hstate, hskc, hsks]; exact i4
        · rw [htr, List.append_nil]; exact i5
        · intro hcon
          rw [htr, List.append_nil] at hcon
          exact absurd (i6 hcon).1 (by simp [hcl'])

/-- Claim C1: for every outbound edge registered in OutTable, an Inquired
response over it with a non-empty remote id different from LocalId and not
yet connected makes the manager send a CM::Connect notification whose
peer_id is LocalId over that edge, create a Connection with that remote
id, add it to OutTable, and emit NewConnection(con, true); the trace shows
the emission strictly after the table insertion. -/
theorem claim_C1 (s : CMState) (edge pedge : Edge) (pid : PeerId)
    (hout : edge.outbound = true) (hpid : pid ≠ [])
    (hne : pid ≠ s.localId) (hnocon : s.conTab.getConnection pid = none)
    (hedge : s.conTab.getEdge edge = some pedge) :
    Inquired s ⟨.edge edge, ⟨pid⟩⟩ =
      ({ s with conTab := s.conTab.addConnection ⟨pedge, s.localId, pid⟩ },
       [.sendNotification "CM::Connect" (some s.localId) (.edge edge),
        .insert true ⟨pedge, s.localId, pid⟩,
        .newConnection ⟨pedge, s.localId, pid⟩ true]) := by
  simp [Inquired, hout, hpid, hne, hnocon, hedge]

/-- Witness for C1: node A dials B over edge eOut; the response carries id
B and yields the Connect notification, the insertion and the event. -/
theorem claim_C1_witness :
    Inquired sOut ⟨.edge eOut, ⟨idB⟩⟩ =
      ({ sOut with conTab := sOut.conTab.addConnection ⟨eOut, idA, idB⟩ },
       [.sendNotification "CM::Connect" (some idA) (.edge eOut),
        .insert true ⟨eOut, idA, idB⟩,
        .newConnection ⟨eOut, idA, idB⟩ true]) :=
  claim_C1 sOut eOut eOut idB rfl (by decide) (by decide) rfl rfl

/-- Claim C2: an Inquired response over an outbound edge carrying the local
id makes the manager send CM::Close, close the edge with reason
"Attempting to connect to ourself" and emit ConnectionAttemptFailure with
that reason; one carrying an id already connected in OutTable does the
same with reason "Duplicate connection".  In both branches the state is
returned unchanged: no connection is created, no NewConnection is emitted,
and the pre-existing connection is untouched. -/
theorem claim_C2 (s : CMState) (edge : Edge) (pid : PeerId) (c : Connection)
    (hout : edge.outbound = true) :
    (s.localId ≠ [] →
      Inquired s ⟨.edge edge, ⟨s.localId⟩⟩ =
        (s, [.sendNotification "CM::Close" none (.edge edge),
             .closeEdge edge "Attempting to connect to ourself",
             .connectionAttemptFailure edge.remoteAddr
               "Attempting to connect to ourself"])) ∧
    (pid ≠ [] → pid ≠ s.localId → s.conTab.getConnection pid = some c →
      Inquired s ⟨.edge edge, ⟨pid⟩⟩ =
        (s, [.sendNotification "CM::Close" none (.edge edge),
             .closeEdge edge "Duplicate connection",
             .connectionAttemptFailure edge.remoteAddr
               "Duplicate connection"])) := by
  constructor
  · intro hid
    simp [Inquired, hout, hid]
  · intro hpid hne hcon
    simp [Inquired, hout, hpid, hne, hcon]

/-- Witness for C2: a self-connect response in sOut and a duplicate
response over the second edge of sDup. -/
theorem claim_C2_witness :
    Inquired sOut ⟨.edge eOut, ⟨idA⟩⟩ =
      (sOut, [.sendNotification "CM::Close" none (.edge eOut),
              .closeEdge eOut "Attempting to connect to ourself",
              .connectionAttemptFailure "mem://B"
                "Attempting to connect to ourself"]) ∧
    Inquired sDup ⟨.edge eOut2, ⟨idB⟩⟩ =
      (sDup, [.sendNotification "CM::Close" none (.edge eOut2),
              .closeEdge eOut2 "Duplicate connection",
              .connectionAttemptFailure "mem://B" "Duplicate connection"]) :=
  ⟨(claim_C2 sOut eOut idB conB rfl).1 (by decide),
   (claim_C2 sDup eOut2 idB conB rfl).2 (by decide) (by decide) rfl⟩

/-- Claim C3: the first Disconnect call sets closed, and its effect trace
is, in order, a disconnect call on every connection of both tables, a
close with reason "Disconnecting" of every not yet closed edge of both
tables, the factory stop, and a synchronous Disconnected exactly when the
pre-snapshot found both tables empty of edges; the HandleDisconnect path
triggered by each connection disconnect sends the CM::Disconnect
notification before closing that connection edge. -/
theorem claim_C3 (s s0 : CMState) (c : Connection) (h : s.closed = false) :
    (Disconnect s).1.closed = true ∧
    (Disconnect s).1.edgeFactory.stopped = true ∧
    (Disconnect s).2 =
      (s.conTab.cons.map Effect.conDisconnect) ++
      (s.remConTab.cons.map Effect.conDisconnect) ++
      ((s.conTab.edges.filter (fun e => !e.closed)).map
         (fun e => Effect.closeEdge e "Disconnecting")) ++
      ((s.remConTab.edges.filter (fun e => !e.closed)).map
         (fun e => Effect.closeEdge e "Disconnecting")) ++
      [Effect.stopFactory] ++
      (if s.conTab.edges.length = 0 ∧ s.remConTab.edges.length = 0 then
         [Effect.disconnected] else []) ∧
    (HandleDisconnect s0 c).2 =
      [.sendNotification "CM::Disconnect" none (.con c),
       .closeEdge c.edge "Local disconnect request"] := by
  refine ⟨?_, ?_, ?_, rfl⟩ <;> simp [Disconnect, h, EdgeFactory.stop]

/-- Witness for C3: shutdown of sLive, which holds one connection and one
edge in each table. -/
theorem claim_C3_witness :
    (Disconnect sLive).1.closed = true ∧
    (Disconnect sLive).1.edgeFactory.stopped = true ∧
    (Disconnect sLive).2 =
      (sLive.conTab.cons.map Effect.conDisconnect) ++
      (sLive.remConTab.cons.map Effect.conDisconnect) ++
      ((sLive.conTab.edges.filter (fun e => !e.closed)).map
         (fun e => Effect.closeEdge e "Disconnecting")) ++
      ((sLive.remConTab.edges.filter (fun e => !e.closed)).map
         (fun e => Effect.closeEdge e "Disconnecting")) ++
      [Effect.stopFactory] ++
      (if sLive.conTab.edges.length = 0 ∧ sLive.remConTab.edges.length = 0
       then [Effect.disconnected] else []) ∧
    (HandleDisconnect sLive conB).2 =
      [.sendNotification "CM::Disconnect" none (.con conB),
       .closeEdge conB.edge "Local disconnect request"] :=
  claim_C3 sLive sLive conB rfl

/-- Claim C4: over every admissible event sequence, the Disconnected event
appears at most once in the trace, and whenever it has appeared the closed
flag is set (Disconnect was called) and both tables are empty of edges. -/
theorem claim_C4 {w : World} {tr : List Effect} (h : Reach w tr) :
    tr.count Effect.disconnected ≤ 1 ∧
    (1 ≤ tr.count Effect.disconnected →
      w.cm.closed = true ∧ w.cm.conTab.edges = [] ∧
      w.cm.remConTab.edges = []) := by
  obtain ⟨i1, i2, -, -, i5, i6⟩ := reach_inv h
  refine ⟨i5, fun hd => ?_⟩
  obtain ⟨hc, hp⟩ := i6 hd
  refine ⟨hc, ?_, ?_⟩
  · rw [i1, hp]; rfl
  · rw [i2, hp]; rfl

/-- Witness for C4: the run that calls Disconnect on a fresh manager; the
single synchronous Disconnected emission satisfies the bound. -/
theorem claim_C4_witness :
    (([] : List Effect) ++
        (stepE (initState idA) Event.callDisconnect).2).count
      Effect.disconnected ≤ 1 ∧
    (1 ≤ (([] : List Effect) ++
        (stepE (initState idA) Event.callDisconnect).2).count
      Effect.disconnected →
      (stepE (initState idA) Event.callDisconnect).1.closed = true ∧
      (stepE (initState idA) Event.callDisconnect).1.conTab.edges = [] ∧
      (stepE (initState idA) Event.callDisconnect).1.remConTab.edges = []) :=
  claim_C4 (Reach.step Event.callDisconnect (Reach.init idA) True.intro)

/-- Claim C5: an incoming CM::Inquire over any sender is answered with the
local id; a CM::Connect over an inbound edge registered in InTable with a
non-empty remote id first calls disconnect on any existing InTable
connection with that id, then creates the Connection, inserts it into
InTable, and emits NewConnection(con, false). -/
theorem claim_C5 (s : CMState) (edge pedge : Edge) (pid : PeerId)
    (r : RpcRequest) (hpid : pid ≠ [])
    (hedge : s.remConTab.getEdge edge = some pedge) :
    Inquire s r = (s, [.respond s.localId]) ∧
    Connect s ⟨.edge edge, ⟨pid⟩⟩ =
      ({ s with remConTab :=
          s.remConTab.addConnection ⟨pedge, s.localId, pid⟩ },
       (match s.remConTab.getConnection pid with
        | some oldCon => [Effect.conDisconnect oldCon]
        | none => []) ++
       [.insert false ⟨pedge, s.localId, pid⟩,
        .newConnection ⟨pedge, s.localId, pid⟩ false]) := by
  refine ⟨rfl, ?_⟩
  simp only [Connect, hpid, hedge]
  split <;> simp_all

/-- Witness for C5: node C connects again over eIn while sIn already holds
an inbound connection from C; the old connection is disconnected first. -/
theorem claim_C5_witness :
    Inquire sIn ⟨.edge eIn, ⟨idC⟩⟩ = (sIn, [.respond idA]) ∧
    Connect sIn ⟨.edge eIn, ⟨idC⟩⟩ =
      ({ sIn with remConTab :=
          sIn.remConTab.addConnection ⟨eIn, idA, idC⟩ },
       [.conDisconnect conC,
        .insert false ⟨eIn, idA, idC⟩,
        .newConnection ⟨eIn, idA, idC⟩ false]) :=
  claim_C5 sIn eIn eIn idC ⟨.edge eIn, ⟨idC⟩⟩ (by decide) rfl

/-- Claim C6: a newly adopted edge gets its sink set and its Closed event
subscribed; an outbound edge is inserted into OutTable and receives the
CM::Inquire request carrying LocalId, an inbound edge is inserted into
InTable with no message sent. -/
theorem claim_C6 (s : CMState) (e : Edge) :
    HandleNewEdge s e =
      if e.outbound then
        ({ s with conTab := s.conTab.addEdge e },
         [.setSink e, .subscribeClosed e,
          .sendRequest "CM::Inquire" s.localId e])
      else
        ({ s with remConTab := s.remConTab.addEdge e },
         [.setSink e, .subscribeClosed e]) := by
  by_cases h : e.outbound <;> simp [HandleNewEdge, h]

/-- Claim C7: ConnectTo and AddEdgeListener after shutdown return with the
state unchanged and no effects; before shutdown ConnectTo emits
ConnectionAttemptFailure with reason "No EdgeListener to handle request"
exactly when no listener claims the address, and performs only the dial
when one does. -/
theorem claim_C7 (s : CMState) (addr : Addr) (l : Addr → Bool) :
    (s.closed = true →
      ConnectTo s addr = (s, []) ∧ AddEdgeListener s l = (s, [])) ∧
    (s.closed = false →
      (s.edgeFactory.createEdgeTo addr = false →
        ConnectTo s addr =
          (s, [.connectionAttemptFailure addr
                 "No EdgeListener to handle request"])) ∧
      (s.edgeFactory.createEdgeTo addr = true →
        ConnectTo s addr = (s, [.dial addr]))) := by
  constructor
  · intro h
    exact ⟨by simp [ConnectTo, h], by simp [AddEdgeListener, h]⟩
  · intro h
    constructor
    · intro hd
      simp [ConnectTo, h, hd]
    · intro hd
      simp [ConnectTo, h, hd]

/-- Witness for C7: the post-shutdown no-ops on sDown, the failure event on
listener-less sOut, and the silent dial on sClaim. -/
theorem claim_C7_witness :
    (ConnectTo sDown "mem://B" = (sDown, []) ∧
      AddEdgeListener sDown (fun _ => true) = (sDown, [])) ∧
    ConnectTo sOut "mem://B" =
      (sOut, [.connectionAttemptFailure "mem://B"
                "No EdgeListener to handle request"]) ∧
    ConnectTo sClaim "mem://B" = (sClaim, [.dial "mem://B"]) :=
  ⟨(claim_C7 sDown "mem://B" (fun _ => true)).1 rfl,
   ((claim_C7 sOut "mem://B" (fun _ => true)).2 rfl).1 rfl,
   ((claim_C7 sClaim "mem://B" (fun _ => true)).2 rfl).2 rfl⟩

/-- Claim C8: every malformed handshake message, namely an Inquired or
Connect whose sender is not an Edge, an Inquired over an inbound edge, or
a payload with missing or empty peer id, is dropped with the state
unchanged and an empty effect trace: nothing sent, no table touched, no
event, no edge closed. -/
theorem claim_C8 (s : CMState) (r : RpcRequest) :
    (∀ d, r.sender = .other d →
      Inquired s r = (s, []) ∧ Connect s r = (s, [])) ∧
    (∀ c, r.sender = .con c →
      Inquired s r = (s, []) ∧ Connect s r = (s, [])) ∧
    (∀ e, r.sender = .edge e → e.outbound = false →
      Inquired s r = (s, [])) ∧
    (r.message.peerId = [] →
      Inquired s r = (s, []) ∧ Connect s r = (s, [])) := by
  rcases r with ⟨sd, m⟩
  refine ⟨?_, ?_, ?_, ?_⟩
  · intro d hd
    cases sd with
    | edge e => cases hd
    | con c => cases hd
    | other x => exact ⟨rfl, rfl⟩
  · intro c hd
    cases sd with
    | edge e => cases hd
    | con x => exact ⟨rfl, rfl⟩
    | other d => cases hd
  · intro e hd h
    cases sd with
    | edge x => cases hd; simp [Inquired, h]
    | con c => cases hd
    | other d => cases hd
  · intro h
    have h' : m.peerId = [] := h
    cases sd with
    | edge e =>
      constructor
      · by_cases ho : e.outbound <;> simp [Inquired, ho, h']
      · simp [Connect, h']
    | con c => exact ⟨rfl, rfl⟩
    | other d => exact ⟨rfl, rfl⟩

/-- Witness for C8: a non-Edge sender, a Connection sender, an Inquired on
the inbound edge eIn, and an empty peer id are all dropped. -/
theorem claim_C8_witness :
    (Inquired sOut ⟨.other "peer", ⟨idB⟩⟩ = (sOut, []) ∧
      Connect sOut ⟨.other "peer", ⟨idB⟩⟩ = (sOut, [])) ∧
    (Inquired sOut ⟨.con conB, ⟨idB⟩⟩ = (sOut, []) ∧
      Connect sOut ⟨.con conB, ⟨idB⟩⟩ = (sOut, [])) ∧
    Inquired sIn ⟨.edge eIn, ⟨idC⟩⟩ = (sIn, []) ∧
    (Inquired sOut ⟨.edge eOut, ⟨[]⟩⟩ = (sOut, []) ∧
      Connect sOut ⟨.edge eOut, ⟨[]⟩⟩ = (sOut, [])) :=
  ⟨(claim_C8 sOut ⟨.other "peer", ⟨idB⟩⟩).1 "peer" rfl,
   (claim_C8 sOut ⟨.con conB, ⟨idB⟩⟩).2.1 conB rfl,
   (claim_C8 sIn ⟨.edge eIn, ⟨idC⟩⟩).2.2.1 eIn rfl rfl,
   (claim_C8 sOut ⟨.edge eOut, ⟨[]⟩⟩).2.2.2 rfl⟩

/-- Claim C9: the Inquired and Connect handlers never consult the closed
flag: running either on a state with the closed flag overwritten to any
value gives the same effect trace and the same state up to that flag, so
after shutdown a well-formed handshake still promotes the edge exactly as
before shutdown. -/
theorem claim_C9 (s : CMState) (r : RpcRequest) (b : Bool) :
    Inquired (setClosed s b) r =
      (setClosed (Inquired s r).1 b, (Inquired s r).2) ∧
    Connect (setClosed s b) r =
      (setClosed (Connect s r).1 b, (Connect s r).2) := by
  rcases r with ⟨sd, m⟩
  constructor
  · cases sd with
    | edge e =>
      by_cases ho : e.outbound
      · by_cases hm : m.peerId = []
        · simp [Inquired, setClosed, ho, hm]
        · by_cases hl : m.peerId = s.localId
          · have hl' : (m.peerId = s.localId) ↔ True := iff_of_true hl trivial
            simp [Inquired, setClosed, ho, hm, hl']
          · by_cases hc : (s.conTab.getConnection m.peerId).isSome
            · simp [Inquired, setClosed, ho, hm, hl, hc]
            · cases hg : s.conTab.getEdge e with
              | none => simp [Inquired, setClosed, ho, hm, hl, hc, hg]
              | some pe => simp [Inquired, setClosed, ho, hm, hl, hc, hg]
      · simp [Inquired, setClosed, ho]
    | con c => simp [Inquired, setClosed]
    | other d => simp [Inquired, setClosed]
  · cases sd with
    | edge e =>
      by_cases hm : m.peerId = []
      · simp [Connect, setClosed, hm]
      · cases hg : s.remConTab.getEdge e with
        | none => simp [Connect, setClosed, hm, hg]
        | some pe => simp [Connect, setClosed, hm, hg]
    | con c => simp [Connect, setClosed]
    | other d => simp [Connect, setClosed]

/-- Claim C10: the remote CM::Disconnect handler marks disconnecting in
InTable when it contains the connection and otherwise falls back to
OutTable unconditionally, then always closes the edge with reason "Remote
disconnect"; the local handler prefers OutTable and falls back to InTable;
final removal on Disconnected is routed by the outbound flag of the edge. -/
theorem claim_C10 (s : CMState) (c : Connection) (m : RpcMessage)
    (r : String) :
    (s.remConTab.contains c = true →
      DisconnectRpc s ⟨.con c, m⟩ =
        ({ s with remConTab := s.remConTab.disconnect c },
         [.closeEdge c.edge "Remote disconnect"])) ∧
    (s.remConTab.contains c = false →
      DisconnectRpc s ⟨.con c, m⟩ =
        ({ s with conTab := s.conTab.disconnect c },
         [.closeEdge c.edge "Remote disconnect"])) ∧
    (s.conTab.contains c = true →
      HandleDisconnect s c =
        ({ s with conTab := s.conTab.disconnect c },
         [.sendNotification "CM::Disconnect" none (.con c),
          .closeEdge c.edge "Local disconnect request"])) ∧
    (s.conTab.contains c = false →
      HandleDisconnect s c =
        ({ s with remConTab := s.remConTab.disconnect c },
         [.sendNotification "CM::Disconnect" none (.con c),
          .closeEdge c.edge "Local disconnect request"])) ∧
    HandleDisconnected s c r =
      (if c.edge.outbound then
        { s with conTab := s.conTab.removeConnection c }
      else { s with remConTab := s.remConTab.removeConnection c }) := by
  refine ⟨?_, ?_, ?_, ?_, rfl⟩ <;> intro h <;>
    simp [DisconnectRpc, HandleDisconnect, h]

/-- Witness for C10: conC is marked in InTable of sIn; in sOut, which holds
it in neither table, the fallback still marks it in OutTable; the local
handler falls back to InTable; removal of conB follows its outbound edge. -/
theorem claim_C10_witness :
    DisconnectRpc sIn ⟨.con conC, ⟨[]⟩⟩ =
      ({ sIn with remConTab := sIn.remConTab.disconnect conC },
       [.closeEdge conC.edge "Remote disconnect"]) ∧
    DisconnectRpc sOut ⟨.con conC, ⟨[]⟩⟩ =
      ({ sOut with conTab := sOut.conTab.disconnect conC },
       [.closeEdge conC.edge "Remote disconnect"]) ∧
    HandleDisconnect sOut conC =
      ({ sOut with remConTab := sOut.remConTab.disconnect conC },
       [.sendNotification "CM::Disconnect" none (.con conC),
        .closeEdge conC.edge "Local disconnect request"]) ∧
    HandleDisconnected sLive conB "gone" =
      (if conB.edge.outbound then
        { sLive with conTab := sLive.conTab.removeConnection conB }
      else { sLive with remConTab := sLive.remConTab.removeConnection conB }) :=
  ⟨(claim_C10 sIn conC ⟨[]⟩ "gone").1 rfl,
   (claim_C10 sOut conC ⟨[]⟩ "gone").2.1 rfl,
   (claim_C10 sOut conC ⟨[]⟩ "gone").2.2.2.1 rfl,
   (claim_C10 sLive conB ⟨[]⟩ "gone").2.2.2.2⟩

end CM
